import Mathlib

/-!
Verification of the Poll Lifecycle & Tally Engine of `PollingSystem.py`.

The Python classes `PollSystem` (one poll) and `PollManager` (the store)
are shallowly embedded below.  Python timestamps (`datetime.datetime`)
are modelled as integers ordered as timestamps; `isoformat` /
`fromisoformat` round-trip exactly in Python, so the serialized date is
modelled by the timestamp itself.  A Python `dict` is modelled as an
association list with the insertion-order update semantics of CPython
(`dictSet` overwrites in place or appends a fresh key at the end), and
raised exceptions become `Except` errors.
-/

namespace PollingSystem

/-- Timestamps, modelling `datetime.datetime` (a totally ordered time type). -/
abbrev DateTime := Int

/-- The serialized form of a date.  `isoformat`/`fromisoformat` are an exact
bijection in Python, so the model keeps the timestamp itself. -/
abbrev IsoString := Int

/-- `datetime.isoformat`, modelled on abstract timestamps. -/
def isoformat (d : DateTime) : IsoString := d

/-- `datetime.datetime.fromisoformat`, modelled on abstract timestamps. -/
def fromisoformat (s : IsoString) : DateTime := s

/-- A Python `dict` from option label to vote count (counts are Python
ints, hence `Int`: a loaded file may hold negative counts). -/
abbrev AnswersMap := List (String × Int)

/-- `m[k]` lookup on a Python dict: the value at the first (unique) matching
key, `none` when the key is absent (`KeyError`). -/
def dictGet (m : AnswersMap) (k : String) : Option Int :=
  match m with
  | [] => none
  | (k', v) :: rest => if k' = k then some v else dictGet rest k

/-- `m[k] = v` on a Python dict: overwrite in place when the key exists,
append at the end otherwise (CPython insertion-order semantics). -/
def dictSet (m : AnswersMap) (k : String) (v : Int) : AnswersMap :=
  match m with
  | [] => [(k, v)]
  | (k', v') :: rest => if k' = k then (k, v) :: rest else (k', v') :: dictSet rest k v

/-- The key list of a dict. -/
def dictKeys (m : AnswersMap) : List String := m.map Prod.fst

/-- `{option: 0 for option in options}`: zero-initialized tallies. -/
def zeroInit (options : List String) : AnswersMap :=
  options.foldl (fun m o => dictSet m o 0) []

/-- One poll: the state of a `PollSystem` instance. -/
structure Poll where
  question : String
  options : List String
  start_date : DateTime
  end_date : DateTime
  answers : AnswersMap
deriving Repr, DecidableEq

/-- `PollSystem.__init__`: `self.answers = answers or {option: 0 for option
in options}` — `None` and the empty dict are falsy in Python, so both are
replaced by zero-initialized tallies. -/
def PollSystem.init (question : String) (options : List String)
    (start_date end_date : DateTime) (answers : Option AnswersMap) : Poll where
  question := question
  options := options
  start_date := start_date
  end_date := end_date
  answers :=
    match answers with
    | none => zeroInit options
    | some a => if a.isEmpty then zeroInit options else a

/-- `PollSystem.poll_active`, with the current time `now` as an explicit
parameter: `self.start_date <= now <= self.end_date`. -/
def poll_active (p : Poll) (now : DateTime) : Prop :=
  p.start_date ≤ now ∧ now ≤ p.end_date

instance (p : Poll) (now : DateTime) : Decidable (poll_active p now) :=
  inferInstanceAs (Decidable (_ ∧ _))

/-- Python `str.strip()`: remove leading and trailing whitespace. -/
def strip (s : String) : String :=
  ⟨((s.data.dropWhile Char.isWhitespace).reverse.dropWhile Char.isWhitespace).reverse⟩

/-- The exceptions `PollSystem.vote` can raise: `Exception("Poll is not
active.")`, `ValueError` for an invalid option, and `KeyError` from
`self.answers[option] += 1` when the tallies lack the key. -/
inductive VoteErr where
  | pollNotActive
  | invalidOption
  | keyError
deriving Repr, DecidableEq

/-- `PollSystem.vote`: strip the label, check activity, check membership in
`options`, then `self.answers[option] += 1`. -/
def vote (p : Poll) (now : DateTime) (option : String) : Except VoteErr Poll :=
  let option := strip option
  if ¬ poll_active p now then .error .pollNotActive
  else if option ∉ p.options then .error .invalidOption
  else
    match dictGet p.answers option with
    | none => .error .keyError
    | some n => .ok { p with answers := dictSet p.answers option (n + 1) }

/-- The data-model invariant of a poll (spec §3): the key set of `tallies`
is exactly the set of labels in `options`, and every count is
non-negative. -/
def PollInv (p : Poll) : Prop :=
  (∀ k, k ∈ dictKeys p.answers ↔ k ∈ p.options) ∧ ∀ kv ∈ p.answers, 0 ≤ kv.2

/-- The JSON record of one poll, as handled by `to_dict`/`from_dict`.
Fields are optional because an arbitrary loaded record may lack any of
them (`data["question"]` raises `KeyError`; `data.get("answers", d)`
takes `d` only when the key is absent). -/
structure Record where
  question : Option String
  options : Option (List String)
  start_date : Option IsoString
  end_date : Option IsoString
  answers : Option AnswersMap
deriving Repr, DecidableEq

/-- `PollSystem.to_dict`. -/
def to_dict (p : Poll) : Record where
  question := some p.question
  options := some p.options
  start_date := some (isoformat p.start_date)
  end_date := some (isoformat p.end_date)
  answers := some p.answers

/-- Errors of `PollSystem.from_dict`: `KeyError` for a missing required
field (`question`, `options`, `start_date`, `end_date`). -/
inductive RecordErr where
  | keyError
deriving Repr, DecidableEq

/-- `PollSystem.from_dict`: `data["options"]` is demanded first (it is
evaluated inside the default of `data.get("answers", ...)` before
anything else), `answers` falls back to zero-initialized tallies only
when the key is absent, and the record is rebuilt through
`PollSystem.__init__`. -/
def from_dict (data : Record) : Except RecordErr Poll :=
  match data.options with
  | none => .error .keyError
  | some opts =>
    let answers := data.answers.getD (zeroInit opts)
    match data.question, data.start_date, data.end_date with
    | some q, some s, some e =>
        .ok (PollSystem.init q opts (fromisoformat s) (fromisoformat e) (some answers))
    | _, _, _ => .error .keyError

/-- The content of the durable file `save_file`: missing
(`FileNotFoundError`), unparseable (`json.JSONDecodeError`), or a parsed
JSON array of records. -/
inductive FileState where
  | missing
  | invalid
  | json (records : List Record)
deriving Repr, DecidableEq

/-- The state of a `PollManager`: its poll list and the content of its
durable file. -/
structure PollManager where
  polls : List Poll
  file : FileState
deriving Repr, DecidableEq

/-- `PollManager.save_polls`: overwrite the file with the serialization of
every poll, in order. -/
def save_polls (m : PollManager) : PollManager :=
  { m with file := .json (m.polls.map to_dict) }

/-- `PollManager.load_polls`: a missing or unparseable file yields the
empty list (the caught `FileNotFoundError`/`JSONDecodeError`); a parsed
array is decoded record by record, and any `from_dict` failure
propagates uncaught. -/
def load_polls (file : FileState) : Except RecordErr (List Poll) :=
  match file with
  | .missing => .ok []
  | .invalid => .ok []
  | .json records => records.mapM from_dict

/-- `PollManager.__init__`: start with `polls = []`, then `load_polls`.
Construction never writes the file. -/
def PollManager.construct (file : FileState) : Except RecordErr PollManager :=
  (load_polls file).map fun ps => { polls := ps, file := file }

/-- The exception of `PollManager.new_poll`: `ValueError("Start date must
be before end date.")`. -/
inductive CreateErr where
  | invalidWindow
deriving Repr, DecidableEq

/-- `PollManager.new_poll`: reject `start_date >= end_date` before any
mutation, otherwise append a fresh poll (default tallies), save, and
return the poll.  The pair keeps the (unchanged, on failure) manager
state explicit. -/
def new_poll (m : PollManager) (question : String) (options : List String)
    (start_date end_date : DateTime) : Except CreateErr Poll × PollManager :=
  if start_date ≥ end_date then (.error .invalidWindow, m)
  else
    let poll := PollSystem.init question options start_date end_date none
    let m' := save_polls { m with polls := m.polls ++ [poll] }
    (.ok poll, m')

/-- `PollManager.get_active_polls`. -/
def get_active_polls (m : PollManager) (now : DateTime) : List Poll :=
  m.polls.filter fun p => decide (poll_active p now)

/-!
A poll object with Python reference semantics, for `generate_report`.
In CPython `return self.answers` returns the dict object itself, not a
copy, so the caller holds an alias into the poll's state.  The heap of
dict objects is explicit: a poll holds a reference into it.
-/

/-- A reference to a dict object on the heap. -/
abbrev Ref := Nat

/-- The heap of dict objects. -/
abbrev Heap := List AnswersMap

/-- Dereference (a dangling reference yields the empty dict; the claims
only use live references). -/
def Heap.getRef (h : Heap) (r : Ref) : AnswersMap :=
  match h, r with
  | [], _ => []
  | m :: _, 0 => m
  | _ :: rest, r + 1 => Heap.getRef rest r

/-- Overwrite the dict object at a reference (no-op when dangling). -/
def Heap.setRef (h : Heap) (r : Ref) (m : AnswersMap) : Heap :=
  match h, r with
  | [], _ => []
  | _ :: rest, 0 => m :: rest
  | m' :: rest, r + 1 => m' :: Heap.setRef rest r m

/-- A `PollSystem` instance under reference semantics: `answers` is a
reference to a heap-allocated dict. -/
structure PollObj where
  question : String
  options : List String
  start_date : DateTime
  end_date : DateTime
  answersRef : Ref
deriving Repr, DecidableEq

/-- `PollSystem.generate_report`: `return self.answers` returns the
reference to the internal dict, not a copy. -/
def generate_report (p : PollObj) : Ref := p.answersRef

/-- The tallies of a poll object: the dict its `answers` reference points
at. -/
def objTallies (h : Heap) (p : PollObj) : AnswersMap := h.getRef p.answersRef

/-- A caller-side mutation `d[k] = v` performed through a dict reference
`r` returned to the caller. -/
def mutateThroughRef (h : Heap) (r : Ref) (k : String) (v : Int) : Heap :=
  h.setRef r (dictSet (h.getRef r) k v)

/-! ### Dict-model lemmas -/

theorem dictGet_dictSet_self (m : AnswersMap) (k : String) (v : Int) :
    dictGet (dictSet m k v) k = some v := by
  induction m with
  | nil => simp [dictSet, dictGet]
  | cons kv rest ih =>
    obtain ⟨k', v'⟩ := kv
    by_cases h : k' = k
    · simp [dictSet, dictGet, h]
    · simp [dictSet, dictGet, h, ih]

theorem dictGet_dictSet_ne (m : AnswersMap) {k k' : String} (v : Int) (h : k' ≠ k) :
    dictGet (dictSet m k v) k' = dictGet m k' := by
  induction m with
  | nil => simp [dictSet, dictGet, Ne.symm h]
  | cons kv rest ih =>
    obtain ⟨k'', v''⟩ := kv
    by_cases hk : k'' = k
    · subst hk
      simp [dictSet, dictGet, Ne.symm h]
    · simp [dictSet, dictGet, hk, ih]

theorem mem_dictSet_val (m : AnswersMap) (k : String) (v : Int) :
    ∀ kv ∈ dictSet m k v, kv.2 = v ∨ kv ∈ m := by
  induction m with
  | nil => simp [dictSet]
  | cons kv' rest ih =>
    obtain ⟨k', v'⟩ := kv'
    intro kv hkv
    rw [show dictSet ((k', v') :: rest) k v
        = if k' = k then (k, v) :: rest else (k', v') :: dictSet rest k v from rfl] at hkv
    by_cases h : k' = k
    · rw [if_pos h] at hkv
      rcases List.mem_cons.mp hkv with h1 | h1
      · left; rw [h1]
      · right; exact List.mem_cons_of_mem _ h1
    · rw [if_neg h] at hkv
      rcases List.mem_cons.mp hkv with h1 | h1
      · right; rw [h1]; exact List.mem_cons_self _ _
      · rcases ih kv h1 with h2 | h2
        · left; exact h2
        · right; exact List.mem_cons_of_mem _ h2

theorem dictKeys_cons (k : String) (v : Int) (rest : AnswersMap) :
    dictKeys ((k, v) :: rest) = k :: dictKeys rest := rfl

theorem mem_dictKeys_iff (m : AnswersMap) (k : String) :
    k ∈ dictKeys m ↔ (dictGet m k).isSome := by
  induction m with
  | nil => simp [dictKeys, dictGet]
  | cons kv rest ih =>
    obtain ⟨k', v⟩ := kv
    rw [dictKeys_cons, List.mem_cons,
      show dictGet ((k', v) :: rest) k = if k' = k then some v else dictGet rest k from rfl]
    by_cases h : k' = k
    · rw [if_pos h]; simp [h.symm]
    · rw [if_neg h, ← ih]
      have hne : ¬ k = k' := fun hh => h hh.symm
      simp [hne]

theorem mem_dictKeys_dictSet (m : AnswersMap) (k : String) (v : Int) (k' : String) :
    k' ∈ dictKeys (dictSet m k v) ↔ k' = k ∨ k' ∈ dictKeys m := by
  by_cases h : k' = k
  · subst h
    simp [mem_dictKeys_iff, dictGet_dictSet_self]
  · simp [mem_dictKeys_iff, dictGet_dictSet_ne m v h, h]

theorem dictGet_mem (m : AnswersMap) {k : String} {n : Int}
    (h : dictGet m k = some n) : (k, n) ∈ m := by
  induction m with
  | nil => exact absurd h (by simp [dictGet])
  | cons kv rest ih =>
    obtain ⟨k', v⟩ := kv
    rw [show dictGet ((k', v) :: rest) k
        = if k' = k then some v else dictGet rest k from rfl] at h
    by_cases hk : k' = k
    · rw [if_pos hk] at h
      injection h with h
      subst hk h
      exact List.mem_cons_self _ _
    · rw [if_neg hk] at h
      exact List.mem_cons_of_mem _ (ih h)

theorem dictGet_foldl_zero (opts : List String) (m : AnswersMap) (k : String) :
    dictGet (opts.foldl (fun m o => dictSet m o 0) m) k
      = if k ∈ opts then some 0 else dictGet m k := by
  induction opts generalizing m with
  | nil => simp
  | cons o rest ih =>
    simp only [List.foldl_cons, ih]
    by_cases hk : k ∈ rest
    · simp [hk]
    · by_cases hko : k = o
      · subst hko; simp [hk, dictGet_dictSet_self]
      · simp [hk, hko, dictGet_dictSet_ne m 0 hko]

theorem dictGet_zeroInit (opts : List String) (k : String) :
    dictGet (zeroInit opts) k = if k ∈ opts then some 0 else none := by
  simpa [dictGet] using dictGet_foldl_zero opts [] k

theorem mem_dictKeys_zeroInit (opts : List String) (k : String) :
    k ∈ dictKeys (zeroInit opts) ↔ k ∈ opts := by
  rw [mem_dictKeys_iff, dictGet_zeroInit]
  by_cases h : k ∈ opts <;> simp [h]

theorem foldl_zero_val_nonneg (opts : List String) (m : AnswersMap)
    (hm : ∀ kv ∈ m, 0 ≤ kv.2) :
    ∀ kv ∈ opts.foldl (fun m o => dictSet m o 0) m, 0 ≤ kv.2 := by
  induction opts generalizing m with
  | nil => simpa using hm
  | cons o rest ih =>
    refine ih (dictSet m o 0) ?_
    intro kv hkv
    rcases mem_dictSet_val m o 0 kv hkv with h | h
    · exact le_of_eq h.symm
    · exact hm kv h

theorem zeroInit_val_nonneg (opts : List String) :
    ∀ kv ∈ zeroInit opts, 0 ≤ kv.2 :=
  foldl_zero_val_nonneg opts [] (by simp)

/-! ### `vote` computation lemmas -/

theorem vote_eq_ok_of {p : Poll} {now : DateTime} {label : String} {n : Int}
    (hact : poll_active p now) (hmem : strip label ∈ p.options)
    (hn : dictGet p.answers (strip label) = some n) :
    vote p now label = .ok { p with answers := dictSet p.answers (strip label) (n + 1) } := by
  unfold vote
  simp [hact, hmem, hn]

theorem vote_ok_inv {p : Poll} {now : DateTime} {label : String} {p' : Poll}
    (h : vote p now label = .ok p') :
    poll_active p now ∧ strip label ∈ p.options ∧
    ∃ n, dictGet p.answers (strip label) = some n ∧
      p' = { p with answers := dictSet p.answers (strip label) (n + 1) } := by
  by_cases hact : poll_active p now
  · by_cases hmem : strip label ∈ p.options
    · cases hn : dictGet p.answers (strip label) with
      | none =>
        unfold vote at h
        simp [hact, hmem, hn] at h
      | some n =>
        rw [vote_eq_ok_of hact hmem hn] at h
        injection h with h
        exact ⟨hact, hmem, n, rfl, h.symm⟩
    · unfold vote at h
      simp [hact, hmem] at h
  · unfold vote at h
    simp [hact] at h

/-! ### Invariant lemmas -/

theorem PollInv_of_keys_eq {p : Poll} (hkeys : dictKeys p.answers = p.options)
    (hval : ∀ kv ∈ p.answers, 0 ≤ kv.2) : PollInv p :=
  ⟨fun k => by rw [hkeys], hval⟩

theorem PollInv_init_default (q : String) (opts : List String) (s e : DateTime) :
    PollInv (PollSystem.init q opts s e none) := by
  constructor
  · intro k
    show k ∈ dictKeys (zeroInit opts) ↔ k ∈ opts
    exact mem_dictKeys_zeroInit opts k
  · intro kv hkv
    exact zeroInit_val_nonneg opts kv hkv

theorem vote_preserves_PollInv {p : Poll} {now : DateTime} {label : String} {p' : Poll}
    (hinv : PollInv p) (h : vote p now label = .ok p') : PollInv p' := by
  obtain ⟨hact, hmem, n, hn, hp'⟩ := vote_ok_inv h
  subst hp'
  constructor
  · intro k
    show k ∈ dictKeys (dictSet p.answers (strip label) (n + 1)) ↔ k ∈ p.options
    rw [mem_dictKeys_dictSet]
    constructor
    · rintro (rfl | hk)
      · exact hmem
      · exact (hinv.1 k).mp hk
    · intro hk
      exact Or.inr ((hinv.1 k).mpr hk)
  · intro kv hkv
    rcases mem_dictSet_val _ _ _ kv hkv with h1 | h1
    · have hn0 : 0 ≤ n := hinv.2 _ (dictGet_mem _ hn)
      rw [h1]
      omega
    · exact hinv.2 kv h1

theorem init_some_answers (q : String) (opts : List String) (s e : DateTime)
    (a : AnswersMap) :
    (PollSystem.init q opts s e (some a)).answers
      = if a.isEmpty then zeroInit opts else a := rfl

theorem from_dict_ok_empty_answers {data : Record} {opts : List String} {p : Poll}
    (hopts : data.options = some opts)
    (hans : data.answers = none ∨ data.answers = some [])
    (h : from_dict data = .ok p) :
    p.options = opts ∧ p.answers = zeroInit opts := by
  unfold from_dict at h
  rw [hopts] at h
  rcases hq : data.question with _ | q <;> rw [hq] at h <;>
    rcases hs : data.start_date with _ | s <;> rw [hs] at h <;>
      rcases he : data.end_date with _ | e <;> rw [he] at h
  any_goals simp at h
  rcases hans with ha | ha <;> rw [ha] at h <;> subst h
  · constructor
    · rfl
    · rw [show (Option.getD (α := AnswersMap) none (zeroInit opts)) = zeroInit opts from rfl,
        init_some_answers, ite_self]
  · exact ⟨rfl, rfl⟩

theorem from_dict_empty_answers_PollInv {data : Record} {opts : List String} {p : Poll}
    (hopts : data.options = some opts)
    (hans : data.answers = none ∨ data.answers = some [])
    (h : from_dict data = .ok p) : PollInv p := by
  obtain ⟨h1, h2⟩ := from_dict_ok_empty_answers hopts hans h
  constructor
  · intro k
    rw [h2, h1]
    exact mem_dictKeys_zeroInit opts k
  · intro kv hkv
    rw [h2] at hkv
    exact zeroInit_val_nonneg opts kv hkv

theorem getRef_setRef_self (h : Heap) (r : Ref) (m : AnswersMap) (hr : r < h.length) :
    Heap.getRef (Heap.setRef h r m) r = m := by
  induction h generalizing r with
  | nil => simp at hr
  | cons m' rest ih =>
    cases r with
    | zero => rfl
    | succ r => exact ih r (Nat.lt_of_succ_lt_succ hr)

/-! ### Claim theorems -/

/-- **C1.** For every poll `p` (satisfying the data-model invariant of
spec §3, under which the spec quantifies over polls) that is active at
call time and every label whose stripped form is a member of
`p.options`, `vote` succeeds and increments the tally at the stripped
label by exactly 1, leaving every other tally and the poll's question,
options, start date and end date unchanged. -/
theorem vote_active_member_increments_one (p : Poll) (now : DateTime) (label : String)
    (hinv : PollInv p) (hact : poll_active p now) (hmem : strip label ∈ p.options) :
    ∃ p', vote p now label = .ok p' ∧
      (∃ n : Int, dictGet p.answers (strip label) = some n ∧
        dictGet p'.answers (strip label) = some (n + 1)) ∧
      (∀ k, k ≠ strip label → dictGet p'.answers k = dictGet p.answers k) ∧
      p'.question = p.question ∧ p'.options = p.options ∧
      p'.start_date = p.start_date ∧ p'.end_date = p.end_date := by
  have hkey : (dictGet p.answers (strip label)).isSome :=
    (mem_dictKeys_iff _ _).mp ((hinv.1 _).mpr hmem)
  obtain ⟨n, hn⟩ := Option.isSome_iff_exists.mp hkey
  refine ⟨_, vote_eq_ok_of hact hmem hn, ⟨n, hn, ?_⟩, ?_, rfl, rfl, rfl, rfl⟩
  · exact dictGet_dictSet_self _ _ _
  · intro k hk
    exact dictGet_dictSet_ne _ _ hk

/-- Witness for C1: one vote for `" Red "` on an active two-option poll. -/
theorem vote_active_member_increments_one_witness :
    ∃ p', vote ⟨"Color?", ["Red", "Blue"], 0, 10, [("Red", 0), ("Blue", 0)]⟩ 5 " Red " = .ok p' ∧
      (∃ n : Int,
        dictGet [("Red", 0), ("Blue", 0)] (strip " Red ") = some n ∧
        dictGet p'.answers (strip " Red ") = some (n + 1)) ∧
      (∀ k, k ≠ strip " Red " → dictGet p'.answers k = dictGet [("Red", 0), ("Blue", 0)] k) ∧
      p'.question = "Color?" ∧ p'.options = ["Red", "Blue"] ∧
      p'.start_date = 0 ∧ p'.end_date = 10 :=
  vote_active_member_increments_one ⟨"Color?", ["Red", "Blue"], 0, 10, [("Red", 0), ("Blue", 0)]⟩
    5 " Red " (PollInv_of_keys_eq rfl (by decide)) (by decide) (by decide)

/-- **C2.** Whenever `now` lies outside the inclusive window
`[start_date, end_date]`, `vote` fails with the poll-not-active error for
every label, valid option or not: the activity check runs before the
option-validity check. -/
theorem vote_inactive_pollNotActive (p : Poll) (now : DateTime) (label : String)
    (h : ¬ poll_active p now) : vote p now label = .error .pollNotActive := by
  unfold vote
  simp [h]

/-- Witness for C2: voting an invalid option after the window still
reports the activity error. -/
theorem vote_inactive_pollNotActive_witness :
    vote ⟨"Color?", ["Red"], 0, 10, [("Red", 0)]⟩ 11 "Green" = .error .pollNotActive :=
  vote_inactive_pollNotActive ⟨"Color?", ["Red"], 0, 10, [("Red", 0)]⟩ 11 "Green" (by decide)

/-- **C3.** For every valid poll (non-empty options, `start_date <
end_date`, tallies keyed exactly by the options), deserializing the
serialization yields the identical poll — question, options, window and
tallies included. -/
theorem deserialize_serialize_roundtrip (p : Poll)
    (hopts : p.options ≠ [])
    (hwin : p.start_date < p.end_date)
    (hkeys : ∀ k, k ∈ dictKeys p.answers ↔ k ∈ p.options) :
    from_dict (to_dict p) = .ok p := by
  have hne : ¬ p.answers.isEmpty = true := by
    intro hemp
    obtain ⟨o, ho⟩ := List.exists_mem_of_ne_nil p.options hopts
    have hk : o ∈ dictKeys p.answers := (hkeys o).mpr ho
    rw [List.isEmpty_iff] at hemp
    rw [hemp] at hk
    simp [dictKeys] at hk
  have h1 : from_dict (to_dict p)
      = .ok (PollSystem.init p.question p.options p.start_date p.end_date (some p.answers)) :=
    rfl
  rw [h1]
  have h2 : PollSystem.init p.question p.options p.start_date p.end_date (some p.answers)
      = { p with answers := if p.answers.isEmpty then zeroInit p.options else p.answers } :=
    rfl
  rw [h2, if_neg hne]

/-- Witness for C3: a concrete valid poll with non-zero tallies
round-trips. -/
theorem deserialize_serialize_roundtrip_witness :
    from_dict (to_dict ⟨"Color?", ["Red", "Blue"], 0, 10, [("Red", 2), ("Blue", 1)]⟩)
      = .ok ⟨"Color?", ["Red", "Blue"], 0, 10, [("Red", 2), ("Blue", 1)]⟩ :=
  deserialize_serialize_roundtrip ⟨"Color?", ["Red", "Blue"], 0, 10, [("Red", 2), ("Blue", 1)]⟩
    (by decide) (by decide) (fun k => Iff.rfl)

/-- **C4.** `new_poll` with `start_date >= end_date` fails with the
invalid-window error and leaves the manager (polls and file) unchanged;
with `start_date < end_date` it appends exactly one poll with
zero-initialized tallies, persists the whole collection, and returns the
created poll. -/
theorem new_poll_window_validation (m : PollManager) (q : String)
    (opts : List String) (s e : DateTime) :
    (e ≤ s → new_poll m q opts s e = (.error .invalidWindow, m)) ∧
    (s < e → ∃ p, new_poll m q opts s e
        = (.ok p, ⟨m.polls ++ [p], .json ((m.polls ++ [p]).map to_dict)⟩) ∧
      p = PollSystem.init q opts s e none ∧ p.answers = zeroInit opts) := by
  constructor
  · intro h
    unfold new_poll
    rw [if_pos h]
  · intro h
    refine ⟨PollSystem.init q opts s e none, ?_, rfl, rfl⟩
    unfold new_poll
    rw [if_neg (not_le.mpr h : ¬ s ≥ e)]
    rfl

/-- Witness for C4: an equal-endpoint window is rejected without
mutation; a proper window appends and persists one zero-tallied poll. -/
theorem new_poll_window_validation_witness :
    new_poll ⟨[], .missing⟩ "Q" ["A"] 5 5 = (.error .invalidWindow, ⟨[], .missing⟩) ∧
    ∃ p, new_poll ⟨[], .missing⟩ "Q" ["A"] 0 1
        = (.ok p, ⟨[] ++ [p], .json (([] ++ [p]).map to_dict)⟩) ∧
      p = PollSystem.init "Q" ["A"] 0 1 none ∧ p.answers = zeroInit ["A"] :=
  ⟨(new_poll_window_validation ⟨[], .missing⟩ "Q" ["A"] 5 5).1 (by decide),
   (new_poll_window_validation ⟨[], .missing⟩ "Q" ["A"] 0 1).2 (by decide)⟩

/-- **C5.** On an active poll, voting a label whose stripped form is not
among the options fails with the invalid-option error. -/
theorem vote_active_invalid_option (p : Poll) (now : DateTime) (label : String)
    (hact : poll_active p now) (hmem : strip label ∉ p.options) :
    vote p now label = .error .invalidOption := by
  unfold vote
  simp [hact, hmem]

/-- Witness for C5: `" Green "` (stripped to `"Green"`) on an active
red/blue poll is rejected as an invalid option. -/
theorem vote_active_invalid_option_witness :
    vote ⟨"Color?", ["Red", "Blue"], 0, 10, [("Red", 0), ("Blue", 0)]⟩ 5 " Green "
      = .error .invalidOption :=
  vote_active_invalid_option ⟨"Color?", ["Red", "Blue"], 0, 10, [("Red", 0), ("Blue", 0)]⟩
    5 " Green " (by decide) (by decide)

/-- **C6 counterexample.** Deserializing a record whose `answers` mapping
is non-empty but keyed differently from `options` succeeds and yields a
poll violating the keys-exactly-options invariant: the claim that every
construction, `deserialize` of any record included, preserves it is
false. -/
theorem from_dict_breaks_tallies_invariant_cex :
    from_dict ⟨some "Q", some ["A", "B"], some 0, some 1, some [("A", 1)]⟩
      = .ok ⟨"Q", ["A", "B"], 0, 1, [("A", 1)]⟩ ∧
    ¬ PollInv ⟨"Q", ["A", "B"], 0, 1, [("A", 1)]⟩ := by
  refine ⟨rfl, ?_⟩
  rintro ⟨h1, -⟩
  exact absurd ((h1 "B").mpr (by decide)) (by decide)

/-- **C6 (amended).** Construction with default tallies and `vote`
preserve the invariant that the tallies are keyed exactly by the options
with non-negative counts; `deserialize` establishes it when the record's
`answers` field is absent or an empty mapping (an arbitrary non-empty
`answers` mapping is kept as-is and need not satisfy it). -/
theorem poll_operations_preserve_tallies_invariant :
    (∀ q opts s e, PollInv (PollSystem.init q opts s e none)) ∧
    (∀ p now label p', PollInv p → vote p now label = .ok p' → PollInv p') ∧
    (∀ data opts p, data.options = some opts →
      (data.answers = none ∨ data.answers = some []) →
      from_dict data = .ok p → PollInv p) :=
  ⟨PollInv_init_default,
   fun _ _ _ _ hinv h => vote_preserves_PollInv hinv h,
   fun _ _ _ hopts hans h => from_dict_empty_answers_PollInv hopts hans h⟩

/-- Witness for C6 (amended): default construction, one concrete vote,
and deserialization of a record with absent answers all yield the
invariant. -/
theorem poll_operations_preserve_tallies_invariant_witness :
    PollInv (PollSystem.init "Q" ["A"] 0 1 none) ∧
    PollInv (⟨"Q", ["A"], 0, 10, [("A", 1)]⟩ : Poll) ∧
    PollInv (⟨"Q", ["A", "B"], 0, 1, zeroInit ["A", "B"]⟩ : Poll) :=
  ⟨poll_operations_preserve_tallies_invariant.1 "Q" ["A"] 0 1,
   poll_operations_preserve_tallies_invariant.2.1
     ⟨"Q", ["A"], 0, 10, [("A", 0)]⟩ 5 "A" ⟨"Q", ["A"], 0, 10, [("A", 1)]⟩
     (PollInv_of_keys_eq rfl (by decide)) rfl,
   poll_operations_preserve_tallies_invariant.2.2
     ⟨some "Q", some ["A", "B"], some 0, some 1, none⟩ ["A", "B"]
     ⟨"Q", ["A", "B"], 0, 1, zeroInit ["A", "B"]⟩ rfl (Or.inl rfl) rfl⟩

/-- **C7.** Constructing a store over a missing or unparseable durable
file succeeds (no error) with an empty poll collection. -/
theorem construct_missing_or_invalid_starts_empty :
    PollManager.construct .missing = .ok ⟨[], .missing⟩ ∧
    PollManager.construct .invalid = .ok ⟨[], .invalid⟩ :=
  ⟨rfl, rfl⟩

/-- **C8 counterexample.** `new_poll` performs no non-emptiness check on
the options: with an empty options sequence and a proper window it
succeeds, appending (and persisting) a poll with no options and empty
tallies — the claim that creation requires non-empty options is false. -/
theorem new_poll_empty_options_succeeds_cex :
    new_poll ⟨[], .missing⟩ "Q" [] 0 1
      = (.ok ⟨"Q", [], 0, 1, []⟩,
         ⟨[⟨"Q", [], 0, 1, []⟩], .json [⟨some "Q", some [], some 0, some 1, some []⟩]⟩) :=
  rfl

/-- **C8 (amended).** `new_poll` does not validate options: for every
manager state and proper window, creation with an empty options sequence
succeeds and appends one poll with empty options and empty tallies. -/
theorem new_poll_accepts_empty_options (m : PollManager) (q : String) (s e : DateTime)
    (h : s < e) :
    ∃ p, (new_poll m q [] s e).1 = .ok p ∧
      (new_poll m q [] s e).2.polls = m.polls ++ [p] ∧
      p.options = [] ∧ p.answers = [] := by
  refine ⟨PollSystem.init q [] s e none, ?_, ?_, rfl, rfl⟩ <;>
    · unfold new_poll
      rw [if_neg (not_le.mpr h : ¬ s ≥ e)]
      try rfl

/-- Witness for C8 (amended): creating an optionless poll on an empty
store. -/
theorem new_poll_accepts_empty_options_witness :
    ∃ p, (new_poll ⟨[], .missing⟩ "Q" [] 0 1).1 = .ok p ∧
      (new_poll ⟨[], .missing⟩ "Q" [] 0 1).2.polls = [] ++ [p] ∧
      p.options = [] ∧ p.answers = [] :=
  new_poll_accepts_empty_options ⟨[], .missing⟩ "Q" 0 1 (by decide)

/-- **C9 counterexample.** `generate_report` returns `self.answers`
itself (a reference, not a copy): mutating the returned mapping changes
the poll's tallies, so the returned value is not a read-only snapshot —
here a caller-side write through the report turns the poll's `"Red"`
tally from 0 into 99. -/
theorem generate_report_not_snapshot_cex :
    objTallies [[("Red", 0)]] ⟨"Q", ["Red"], 0, 10, 0⟩ = [("Red", 0)] ∧
    objTallies
        (mutateThroughRef [[("Red", 0)]] (generate_report ⟨"Q", ["Red"], 0, 10, 0⟩) "Red" 99)
        ⟨"Q", ["Red"], 0, 10, 0⟩
      = [("Red", 99)] := by
  decide

/-- **C9 (amended).** `generate_report` returns an alias of the internal
tallies dict: for every live poll object, a caller-side write through
the returned reference is a write to the poll's own tallies. -/
theorem generate_report_returns_alias (h : Heap) (p : PollObj) (k : String) (v : Int)
    (hr : p.answersRef < h.length) :
    generate_report p = p.answersRef ∧
    objTallies (mutateThroughRef h (generate_report p) k v) p
      = dictSet (objTallies h p) k v :=
  ⟨rfl, getRef_setRef_self h p.answersRef _ hr⟩

/-- Witness for C9 (amended): concrete one-poll heap. -/
theorem generate_report_returns_alias_witness :
    generate_report ⟨"Q", ["Red"], 0, 10, 0⟩ = 0 ∧
    objTallies
        (mutateThroughRef [[("Red", 0)]] (generate_report ⟨"Q", ["Red"], 0, 10, 0⟩) "Red" 99)
        ⟨"Q", ["Red"], 0, 10, 0⟩
      = dictSet (objTallies [[("Red", 0)]] ⟨"Q", ["Red"], 0, 10, 0⟩) "Red" 99 :=
  generate_report_returns_alias [[("Red", 0)]] ⟨"Q", ["Red"], 0, 10, 0⟩ "Red" 99 (by decide)

/-- **C10.** A record whose `answers` field is present but an empty
mapping deserializes exactly like one with no `answers` field at all:
the empty mapping is discarded (it is falsy in `answers or {...}`) and
the tallies are zero-initialized from the record's options. -/
theorem from_dict_empty_answers_zero_init (q : String) (opts : List String)
    (s e : IsoString) :
    from_dict ⟨some q, some opts, some s, some e, some []⟩
      = from_dict ⟨some q, some opts, some s, some e, none⟩ ∧
    from_dict ⟨some q, some opts, some s, some e, some []⟩
      = .ok ⟨q, opts, fromisoformat s, fromisoformat e, zeroInit opts⟩ := by
  constructor
  · show Except.ok (⟨q, opts, fromisoformat s, fromisoformat e, zeroInit opts⟩ : Poll)
        = .ok ⟨q, opts, fromisoformat s, fromisoformat e,
            if (zeroInit opts).isEmpty then zeroInit opts else zeroInit opts⟩
    rw [ite_self]
  · rfl

end PollingSystem
